import Mathlib

/-!
Verification of the embedding-indexing and semantic-retrieval pipeline of the
openai-memory-search repository, shallowly embedded in Lean.

Sources embedded here:
 - src/embed_and_index.py   : record sanitisation, batch embedding, index build
 - src/semantic_search.py   : CLI query loop (candidate resolution)
 - src/streamlit_app.py     : metadata load, conversation reconstruction,
                              search-result filtering, on-demand insight parsing
 - src/batch_process_insights.py : conversation text assembly, insight
                              generation/parsing, batch main loop with the
                              insight cache and incremental saves

Modelling conventions:
 - JSON values occurring in record fields are `PyVal` (string, number, null,
   or a non-string container).  Numbers are rationals: the scripts only
   compare and sort them.
 - Python `float(x)` applied to a string is an external parsing routine; it
   is a parameter `pf : String → Option Rat` of every definition that needs
   it (`none` models a raised ValueError), with `float` of a number being
   the number itself.
 - The embedding-model tokenizer `tiktoken` is external; it is a parameter
   `encLen : String → Nat` giving the token count of a text.
 - The embedding service is a parameter `embed : String → List Rat`; which
   batches fail with a network error is a parameter `fails : Nat → Bool`.
 - The text-generation service is a parameter `llm : String → String`
   returning the raw response text.
 - The Python string builtins the scripts use (`strip`, `upper`,
   `startswith`, `split`, `replace`, lexicographic comparison) are given
   structural definitions over `String.data` below (`pyStrip`, `pyUpper`,
   ...), so that concrete runs evaluate inside the kernel; they follow the
   CPython semantics for the ASCII texts involved.  `list.sort(key=...)`
   (a stable sort) is modelled by insertion sort, proved stable below.
 - File writes of the insight cache are recorded as a list of snapshots
   (`saves`); an empty list means the file was never touched by the run.
-/

namespace MemSearch

/-- A JSON/Python value as it can appear in a loaded record field. -/
inductive PyVal where
  | str (s : String)
  | num (q : Rat)
  | null
  | container
deriving DecidableEq

instance : Inhabited PyVal := ⟨PyVal.null⟩

/-- One message record of the archive (a JSON object with these keys; a
missing key is `none`). -/
structure MsgRecord where
  conversation_id : Option String
  message_id : Option String
  role : Option String
  content : Option PyVal
  timestamp : Option PyVal
deriving DecidableEq

instance : Inhabited MsgRecord := ⟨⟨none, none, none, none, none⟩⟩

/-- Python truthiness of a `PyVal` (`container` stands for a non-empty one). -/
def pyTruthy : PyVal → Bool
  | .str s => s ≠ ""
  | .num q => q ≠ 0
  | .null => false
  | .container => true

/-- Python `float(v)`: a number converts to itself, a string goes through the
external parse `pf` (`none` = raised), `None` and containers raise. -/
def pyFloat (pf : String → Option Rat) : PyVal → Option Rat
  | .str s => pf s
  | .num q => some q
  | .null => none
  | .container => none

/-- Python `str(v)` as used on non-string contents when assembling
conversation text (`batch_process_insights.py`, line 60). -/
def pyStr : PyVal → String
  | .str s => s
  | .num q => toString q
  | .null => "None"
  | .container => "<container>"

/-- Python `r.get("content", "")` (embed_and_index.py line 32). -/
def contentVal (r : MsgRecord) : PyVal := r.content.getD (.str "")

/-! ## Python string builtins, embedded structurally

CPython implements these in C; they are re-implemented here on `String.data`
(the list of characters) so that every concrete run reduces in the kernel.
`Char.isWhitespace` covers the whitespace the archived ASCII texts contain. -/

/-- Python `s.strip()`: drop whitespace from both ends. -/
def pyStrip (s : String) : String :=
  ⟨((s.data.dropWhile Char.isWhitespace).reverse.dropWhile Char.isWhitespace).reverse⟩

/-- Python `s.upper()` (ASCII texts). -/
def pyUpper (s : String) : String := ⟨s.data.map Char.toUpper⟩

/-- Python `s.startswith(pre)`. -/
def pyStartsWith (s pre : String) : Bool := pre.data.isPrefixOf s.data

/-- Helper of `pySplitChar`: walk the characters, cutting at the separator;
`cur` is the current piece, reversed. -/
def pySplitCharAux (sep : Char) : List Char → List Char → List String
  | [], cur => [⟨cur.reverse⟩]
  | x :: rest, cur =>
    if x = sep then ⟨cur.reverse⟩ :: pySplitCharAux sep rest []
    else pySplitCharAux sep rest (x :: cur)

/-- Python `s.split(sep)` for a one-character separator (the scripts only
split on `"\n"` and `","`).  `"".split(sep) == [""]`. -/
def pySplitChar (sep : Char) (s : String) : List String :=
  pySplitCharAux sep s.data []

/-- Helper of `pyRemoveAll`: left-to-right scan removing non-overlapping
occurrences of `pat`; the fuel (initially the length of the text) makes the
recursion structural. -/
def pyRemoveAllAux (pat : List Char) : Nat → List Char → List Char
  | 0, l => l
  | _ + 1, [] => []
  | fuel + 1, c :: rest =>
    if pat.isPrefixOf (c :: rest) then
      pyRemoveAllAux pat fuel ((c :: rest).drop pat.length)
    else c :: pyRemoveAllAux pat fuel rest

/-- Python `s.replace(pat, "")`: remove every (non-overlapping, leftmost
first) occurrence of `pat`. -/
def pyRemoveAll (pat : String) (s : String) : String :=
  ⟨pyRemoveAllAux pat.data s.data.length s.data⟩

/-- Lexicographic `<` on characters by code point, as Python compares. -/
def listStrLe : List Char → List Char → Bool
  | [], _ => true
  | _ :: _, [] => false
  | a :: as, b :: bs =>
    if a.toNat < b.toNat then true
    else if b.toNat < a.toNat then false
    else listStrLe as bs

/-- Python string `<=` (code-point lexicographic). -/
def pyStrLe (a b : String) : Bool := listStrLe a.data b.data

/-! ## Record Sanitizer (src/embed_and_index.py lines 29-41) -/

/-- One iteration of the sanitise-and-filter loop: the accumulator is the
pair `(texts, valid_records)` grown by appends, exactly as the Python loop
does. -/
def sanitizeStep (encLen : String → Nat) (acc : List String × List MsgRecord)
    (r : MsgRecord) : List String × List MsgRecord :=
  match contentVal r with
  | .str c =>
    let stripped := (pyStrip c)
    if stripped = "" ∨ stripped = "\x7b\x7d" ∨ stripped = "[]" ∨ stripped.length < 3 then acc
    else if encLen stripped < 8192 then (acc.1 ++ [stripped], acc.2 ++ [r])
    else acc
  | _ => acc

/-- The sanitise-and-filter loop over all loaded records: returns
`(texts, valid_records)`. -/
def sanitize (encLen : String → Nat) (records : List MsgRecord) :
    List String × List MsgRecord :=
  records.foldl (sanitizeStep encLen) ([], [])

/-- Eligibility as §4.1 of the spec words it: the content is a string whose
stripped form is non-empty, not "\x7b\x7d" or "[]", at least 3 characters, and
tokenizes to strictly fewer than 8192 tokens. -/
def eligibleSpec (encLen : String → Nat) (r : MsgRecord) : Bool :=
  match contentVal r with
  | .str c =>
    (pyStrip c) ≠ "" && (pyStrip c) ≠ "\x7b\x7d" && (pyStrip c) ≠ "[]" &&
      3 ≤ (pyStrip c).length && encLen (pyStrip c) < 8192
  | _ => false

/-- The stripped text the sanitizer emits for an (eligible) record. -/
def strippedText (r : MsgRecord) : String :=
  match contentVal r with
  | .str c => (pyStrip c)
  | _ => ""

theorem sanitizeStep_eq (encLen : String → Nat) (acc : List String × List MsgRecord)
    (r : MsgRecord) :
    sanitizeStep encLen acc r =
      if eligibleSpec encLen r then (acc.1 ++ [strippedText r], acc.2 ++ [r]) else acc := by
  cases h : contentVal r with
  | str c =>
    have hstep : sanitizeStep encLen acc r =
        if (pyStrip c) = "" ∨ (pyStrip c) = "\x7b\x7d" ∨ (pyStrip c) = "[]" ∨ (pyStrip c).length < 3 then acc
        else if encLen (pyStrip c) < 8192 then (acc.1 ++ [(pyStrip c)], acc.2 ++ [r]) else acc := by
      unfold sanitizeStep; rw [h]
    have hel : eligibleSpec encLen r =
        ((pyStrip c) ≠ "" && (pyStrip c) ≠ "\x7b\x7d" && (pyStrip c) ≠ "[]" &&
          decide (3 ≤ (pyStrip c).length) && decide (encLen (pyStrip c) < 8192)) := by
      unfold eligibleSpec; rw [h]
    have hst : strippedText r = (pyStrip c) := by
      unfold strippedText; rw [h]
    rw [hstep, hel, hst]
    by_cases h1 : (pyStrip c) = "" ∨ (pyStrip c) = "\x7b\x7d" ∨ (pyStrip c) = "[]" ∨ (pyStrip c).length < 3
    · rw [if_pos h1]
      have hfalse : ((pyStrip c) ≠ "" && (pyStrip c) ≠ "\x7b\x7d" && (pyStrip c) ≠ "[]" &&
          decide (3 ≤ (pyStrip c).length) && decide (encLen (pyStrip c) < 8192)) = false := by
        rcases h1 with h1 | h1 | h1 | h1
        · simp [h1]
        · simp [h1]
        · simp [h1]
        · have h3 : ¬ 3 ≤ (pyStrip c).length := by omega
          simp [h3]
      rw [hfalse]
      simp
    · push_neg at h1
      obtain ⟨he, hb2, hs, hl⟩ := h1
      rw [if_neg (by push_neg; exact ⟨he, hb2, hs, hl⟩)]
      by_cases h2 : encLen (pyStrip c) < 8192
      · rw [if_pos h2]
        have htrue : ((pyStrip c) ≠ "" && (pyStrip c) ≠ "\x7b\x7d" && (pyStrip c) ≠ "[]" &&
            decide (3 ≤ (pyStrip c).length) && decide (encLen (pyStrip c) < 8192)) = true := by
          have h3 : 3 ≤ (pyStrip c).length := by omega
          simp [he, hb2, hs, h3, h2]
        rw [htrue]
        simp
      · rw [if_neg h2]
        have hfalse : ((pyStrip c) ≠ "" && (pyStrip c) ≠ "\x7b\x7d" && (pyStrip c) ≠ "[]" &&
            decide (3 ≤ (pyStrip c).length) && decide (encLen (pyStrip c) < 8192)) = false := by
          simp [h2]
        rw [hfalse]
        simp
  | num q =>
    have hstep : sanitizeStep encLen acc r = acc := by
      unfold sanitizeStep; rw [h]
    have hel : eligibleSpec encLen r = false := by
      unfold eligibleSpec; rw [h]
    rw [hstep, hel]
    simp
  | null =>
    have hstep : sanitizeStep encLen acc r = acc := by
      unfold sanitizeStep; rw [h]
    have hel : eligibleSpec encLen r = false := by
      unfold eligibleSpec; rw [h]
    rw [hstep, hel]
    simp
  | container =>
    have hstep : sanitizeStep encLen acc r = acc := by
      unfold sanitizeStep; rw [h]
    have hel : eligibleSpec encLen r = false := by
      unfold eligibleSpec; rw [h]
    rw [hstep, hel]
    simp

theorem sanitize_foldl (encLen : String → Nat) (records : List MsgRecord) :
    ∀ acc : List String × List MsgRecord,
      records.foldl (sanitizeStep encLen) acc =
        (acc.1 ++ (records.filter (eligibleSpec encLen)).map strippedText,
         acc.2 ++ records.filter (eligibleSpec encLen)) := by
  induction records with
  | nil => intro acc; simp
  | cons r rs ih =>
    intro acc
    rw [List.foldl_cons, ih, sanitizeStep_eq, List.filter_cons]
    by_cases h : eligibleSpec encLen r
    · simp [h]
    · simp [h]

/-- Claim C4: the sanitizer keeps a record iff the spec conditions hold, and
emits the kept records together with their stripped texts, in source order,
positionally aligned. -/
theorem C4_sanitizer_eligibility (encLen : String → Nat) (records : List MsgRecord) :
    (sanitize encLen records).2 = records.filter (eligibleSpec encLen) ∧
    (sanitize encLen records).1 =
      (records.filter (eligibleSpec encLen)).map strippedText := by
  unfold sanitize
  rw [sanitize_foldl]
  simp

/-! ## Embedding Client and index build (src/embed_and_index.py lines 46-71) -/

/-- The batch-embedding loop `for i in range(0, len(texts), BATCH_SIZE)` with
`BATCH_SIZE = 100`: batch `b` covers `texts[100*b : 100*b+100]` and either
fails (`fails b = true`: the exception is caught and the batch skipped,
contributing nothing) or contributes one vector per text, in order.  `embed`
is the external embedding service. -/
def runBatches (embed : String → List Rat) (fails : Nat → Bool)
    (texts : List String) : List (List Rat) :=
  (List.range ((texts.length + 99) / 100)).foldl
    (fun acc b =>
      acc ++ (if fails b then [] else ((texts.drop (100 * b)).take 100).map embed))
    []

/-- What a run of the pipeline persists when at least one batch succeeded:
the flat index holds `indexVectors` and the metadata file holds `metadata`. -/
structure BuildOutput where
  indexVectors : List (List Rat)
  metadata : List MsgRecord
deriving DecidableEq

/-- The whole indexing pipeline of embed_and_index.py: sanitise, embed in
batches, and if any embedding was produced save the index together with ALL
of `valid_records` as the metadata file (lines 60-69); with no embeddings
nothing is saved (`none`). -/
def pipeline (encLen : String → Nat) (embed : String → List Rat)
    (fails : Nat → Bool) (records : List MsgRecord) : Option BuildOutput :=
  let sanitized := sanitize encLen records
  let embeddings := runBatches embed fails sanitized.1
  if embeddings = [] then none else some ⟨embeddings, sanitized.2⟩

/-- A run for claim C1: 101 eligible records, the first batch (100 texts)
fails, the second (1 text) succeeds. -/
def c1Records : List MsgRecord :=
  List.replicate 101
    ⟨some "c", none, some "user", some (.str "abc"), some (.num 1)⟩

/-- Tokenizer used for concrete runs: one token per character. -/
def lenEnc : String → Nat := fun s => s.length

/-- Embedding service used for concrete runs: a fixed one-dimensional vector. -/
def constEmbed : String → List Rat := fun _ => [0]

/-- Failure pattern for claim C1: exactly the first batch fails. -/
def failFirstBatch : Nat → Bool := fun b => b = 0

set_option maxRecDepth 40000 in
/-- Claim C1 (evaluation at the failing input): on 101 eligible records with
the first embedding batch failing and the second succeeding, the pipeline
saves an index holding 1 vector next to a metadata file holding all 101
records — the store does not contain exactly the embedded records, and the
alignment invariant is violated. -/
theorem C1_metadata_batch_mismatch :
    (pipeline lenEnc constEmbed failFirstBatch c1Records).map
        (fun o => (o.indexVectors.length, o.metadata.length)) = some (1, 101) := by
  decide

/-! ## A stable sort, modelling Python `list.sort(key=...)`

CPython Timsort is a stable sort; any stable sort computes the same list, so
it is modelled by insertion sort, with sortedness, permutation and stability
proved below. -/

/-- The order `list.sort(key=k)` sorts by. -/
def keyRel {α β : Type} [LinearOrder β] (k : α → β) : α → α → Prop :=
  fun a b => k a ≤ k b

instance keyRelDec {α β : Type} [LinearOrder β] (k : α → β) :
    DecidableRel (keyRel k) :=
  fun a b => inferInstanceAs (Decidable (k a ≤ k b))

/-- Python `list.sort(key=k)`. -/
def sortByKey {α β : Type} [LinearOrder β] (k : α → β) (l : List α) : List α :=
  List.insertionSort (keyRel k) l

theorem sortByKey_perm {α β : Type} [LinearOrder β] (k : α → β) (l : List α) :
    (sortByKey k l).Perm l :=
  List.perm_insertionSort _ l

theorem sortByKey_sorted {α β : Type} [LinearOrder β] (k : α → β) (l : List α) :
    (sortByKey k l).Sorted (keyRel k) := by
  haveI : IsTotal α (keyRel k) := ⟨fun a b => le_total (k a) (k b)⟩
  haveI : IsTrans α (keyRel k) := ⟨fun a b c hab hbc => le_trans hab hbc⟩
  exact List.sorted_insertionSort _ l

theorem filter_orderedInsert_key {α β : Type} [LinearOrder β] (k : α → β)
    (q : β) (a : α) (l : List α) :
    (List.orderedInsert (keyRel k) a l).filter (fun x => decide (k x = q)) =
      if k a = q then a :: l.filter (fun x => decide (k x = q))
      else l.filter (fun x => decide (k x = q)) := by
  induction l with
  | nil =>
    by_cases h : k a = q <;> simp [List.orderedInsert, h]
  | cons b t ih =>
    by_cases hab : keyRel k a b
    · rw [List.orderedInsert, if_pos hab]
      by_cases h : k a = q <;> simp [List.filter_cons, h]
    · rw [List.orderedInsert, if_neg hab]
      have hba : k b < k a := lt_of_not_le hab
      by_cases hq : k a = q
      · have hbq : ¬ k b = q := by
          intro hbq
          rw [hbq, hq] at hba
          exact lt_irrefl q hba
        simp [List.filter_cons, hbq, ih, hq]
      · by_cases hbq : k b = q <;> simp [List.filter_cons, hbq, ih, hq]

/-- Stability of the modelled sort: elements with any fixed key keep their
source order. -/
theorem sortByKey_stable {α β : Type} [LinearOrder β] (k : α → β) (q : β)
    (l : List α) :
    (sortByKey k l).filter (fun x => decide (k x = q)) =
      l.filter (fun x => decide (k x = q)) := by
  induction l with
  | nil => rfl
  | cons x t ih =>
    unfold sortByKey at ih ⊢
    rw [List.insertionSort, filter_orderedInsert_key, ih]
    by_cases h : k x = q <;> simp [List.filter_cons, h]

/-! ## Conversation Reconstructor

Two implementations exist: `get_full_conversation_text_for_llm` in
src/batch_process_insights.py (lines 34-63) and
`get_full_conversation_messages` in src/streamlit_app.py (lines 82-91, on
records decorated at load time, lines 37-47). -/

/-- batch_process_insights.py lines 39-42: the records of the conversation
that carry a (non-null) timestamp. -/
def convFilterBatch (cid : String) (meta : List MsgRecord) : List MsgRecord :=
  meta.filter (fun m => decide (m.conversation_id = some cid) && m.timestamp.isSome)

/-- Python `float(x["timestamp"])`, the sort key of line 50 (`none` = raised). -/
def tsKey (pf : String → Option Rat) (m : MsgRecord) : Option Rat :=
  pyFloat pf (m.timestamp.getD .null)

/-- batch_process_insights.py lines 39-53: collect the timestamped records
of the conversation; none at all gives `None` (line 44); the sort by
`float(timestamp)` is aborted by a TypeError/ValueError from any single
timestamp, and then the WHOLE conversation is skipped (`None`, line 53). -/
def conversationMessagesBatch (pf : String → Option Rat) (cid : String)
    (meta : List MsgRecord) : Option (List MsgRecord) :=
  let cms := convFilterBatch cid meta
  if cms = [] then none
  else if cms.all (fun m => (tsKey pf m).isSome) then
    some (sortByKey (fun m => (tsKey pf m).getD 0) cms)
  else none

/-- batch_process_insights.py lines 55-61: one line of the LLM input. -/
def renderMsg (m : MsgRecord) : String :=
  (if m.role = some "user" then "User" else "Assistant") ++ ": " ++
    pyStrip (pyStr (contentVal m))

/-- batch_process_insights.py lines 34-63 as a whole: the conversation text
handed to the LLM. -/
def get_full_conversation_text_for_llm (pf : String → Option Rat)
    (cid : String) (meta : List MsgRecord) : Option String :=
  (conversationMessagesBatch pf cid meta).map
    (fun ms => String.intercalate "\n" (ms.map renderMsg))

/-- streamlit_app.py lines 41-46: `datetime_obj` computed per record at load
time — `if record.get("timestamp"):` is a TRUTHINESS test, then
`datetime.fromtimestamp(float(ts))` with ValueError/TypeError caught to
`None`.  The datetime is represented by its epoch value. -/
def datetimeObj (pf : String → Option Rat) (m : MsgRecord) : Option Rat :=
  match m.timestamp with
  | none => none
  | some v => if pyTruthy v then pyFloat pf v else none

/-- streamlit_app.py lines 37-47: the loaded metadata list, each record
decorated with its `datetime_obj`. -/
def load_all_metadata_list_version (pf : String → Option Rat)
    (meta : List MsgRecord) : List (MsgRecord × Option Rat) :=
  meta.map (fun m => (m, datetimeObj pf m))

/-- streamlit_app.py lines 82-91: records of the conversation whose
`datetime_obj` is not `None`, sorted by it (individually excluding the
others). -/
def get_full_conversation_messages (cid : String)
    (metaL : List (MsgRecord × Option Rat)) : List (MsgRecord × Option Rat) :=
  if metaL = [] ∨ cid = "" then []
  else
    sortByKey (fun p => p.2.getD 0)
      (metaL.filter (fun p => decide (p.1.conversation_id = some cid) && p.2.isSome))

/-- A float-parse for concrete counterexamples under which no string
converts (as Python `float("abc")` raises). -/
def noParse : String → Option Rat := fun _ => none

/-- Two records of conversation "c": one with an unparsable string
timestamp, one with numeric timestamp 1. -/
def c3meta : List MsgRecord :=
  [⟨some "c", none, some "user", some (.str "hello"), some (.str "abc")⟩,
   ⟨some "c", none, some "user", some (.str "world"), some (.num 1)⟩]

/-- Claim C3 counterexample: in the batch reconstructor one unparsable (but
present) timestamp makes the whole conversation come back empty — the
record with the perfectly parsable timestamp 1 is NOT returned, although the
claim says each bad-timestamp record is excluded individually without
affecting the others. -/
theorem C3_unparsable_timestamp_drops_conversation :
    conversationMessagesBatch noParse "c" c3meta = none ∧
      tsKey noParse (c3meta.getD 1 default) = some 1 := by
  decide

/-- Claim C3 as amended.  Batch reconstructor: when every timestamped record
of the conversation parses, the result is exactly those records, sorted
ascending by parsed timestamp, ties keeping source order; but one present
yet unparsable timestamp aborts the WHOLE conversation (returns nothing)
instead of excluding just that record.  Streamlit reconstructor: records
whose timestamp is truthy and parsable are returned, individually excluding
the others, sorted ascending stably. -/
theorem C3_reconstruction_amended :
    (∀ (pf : String → Option Rat) (cid : String) (meta : List MsgRecord),
      convFilterBatch cid meta ≠ [] →
      (∀ m ∈ convFilterBatch cid meta, (tsKey pf m).isSome) →
      ∃ l, conversationMessagesBatch pf cid meta = some l ∧
        l.Perm (convFilterBatch cid meta) ∧
        l.Sorted (keyRel (fun m => (tsKey pf m).getD 0)) ∧
        ∀ q : Rat, l.filter (fun m => decide ((tsKey pf m).getD 0 = q)) =
          (convFilterBatch cid meta).filter
            (fun m => decide ((tsKey pf m).getD 0 = q))) ∧
    (∀ (pf : String → Option Rat) (cid : String) (meta : List MsgRecord)
        (m : MsgRecord), m ∈ convFilterBatch cid meta → tsKey pf m = none →
      conversationMessagesBatch pf cid meta = none) ∧
    (∀ (pf : String → Option Rat) (cid : String) (meta : List MsgRecord),
      cid ≠ "" →
      ∃ l, get_full_conversation_messages cid
          (load_all_metadata_list_version pf meta) = l ∧
        l.Perm ((load_all_metadata_list_version pf meta).filter
          (fun p => decide (p.1.conversation_id = some cid) && p.2.isSome)) ∧
        l.Sorted (keyRel (fun p : MsgRecord × Option Rat => p.2.getD 0)) ∧
        ∀ q : Rat, l.filter (fun p => decide (p.2.getD 0 = q)) =
          ((load_all_metadata_list_version pf meta).filter
            (fun p => decide (p.1.conversation_id = some cid) && p.2.isSome)).filter
            (fun p => decide (p.2.getD 0 = q))) := by
  refine ⟨?_, ?_, ?_⟩
  · intro pf cid meta hne hall
    refine ⟨sortByKey (fun m => (tsKey pf m).getD 0) (convFilterBatch cid meta),
      ?_, sortByKey_perm _ _, sortByKey_sorted _ _, fun q => sortByKey_stable _ _ _⟩
    unfold conversationMessagesBatch
    rw [if_neg hne, if_pos]
    rw [List.all_eq_true]
    intro m hm
    exact hall m hm
  · intro pf cid meta m hm hnone
    unfold conversationMessagesBatch
    by_cases hne : convFilterBatch cid meta = []
    · rw [if_pos hne]
    · rw [if_neg hne, if_neg]
      intro hall
      rw [List.all_eq_true] at hall
      have := hall m hm
      rw [hnone] at this
      exact Bool.noConfusion this
  · intro pf cid meta hcid
    unfold get_full_conversation_messages
    by_cases hL : load_all_metadata_list_version pf meta = []
    · rw [if_pos (Or.inl hL), hL]
      exact ⟨[], rfl, by simp, by simp [List.Sorted], by simp⟩
    · rw [if_neg (by push_neg; exact ⟨hL, hcid⟩)]
      exact ⟨_, rfl, sortByKey_perm _ _, sortByKey_sorted _ _,
        fun q => sortByKey_stable _ _ _⟩

/-! ## Query-time candidate resolution

src/semantic_search.py lines 44-47 (CLI loop) and src/streamlit_app.py
lines 168-192 (module-level search block).  A FAISS flat index returns the
sentinel handle `-1` for missing neighbours when it holds fewer than `k`
vectors. -/

/-- Python list indexing `l[i]`: a negative index counts from the end;
`none` models a raised IndexError. -/
def pyListGet {α : Type} (l : List α) (i : Int) : Option α :=
  if 0 ≤ i then l.get? i.toNat
  else if 0 ≤ i + l.length then l.get? (i + l.length).toNat
  else none

/-- What happens to one returned candidate handle. -/
inductive HitOutcome where
  | skipped
  | resolved (m : MsgRecord)
  | indexError
deriving DecidableEq

/-- semantic_search.py lines 44-47: the CLI loop skips a handle only when
`idx >= len(metadata)`; any other handle goes straight into
`metadata[idx]`. -/
def cliResolveHit (metadata : List MsgRecord) (idx : Int) : HitOutcome :=
  if (metadata.length : Int) ≤ idx then .skipped
  else
    match pyListGet metadata idx with
    | some m => .resolved m
    | none => .indexError

/-- The sidebar role filter of streamlit_app.py lines 152-156. -/
inductive RoleFilter where
  | any
  | userZain
  | assistantAI
deriving DecidableEq

/-- streamlit_app.py lines 181-184: a hit survives the role filter iff no
active filter mismatches its role. -/
def roleOk : RoleFilter → Option String → Bool
  | .any, _ => true
  | .userZain, r => decide (r = some "user")
  | .assistantAI, r => decide (r = some "assistant")

/-- One entry of `results_to_display` (streamlit_app.py line 186). -/
structure SearchHit where
  original_faiss_idx : Int
  score : Rat
  hit_message : MsgRecord × Option Rat
deriving DecidableEq

/-- streamlit_app.py lines 173-186: walk the candidate `(handle, distance)`
pairs in index order; skip handles out of the Metadata Store bounds
(`idx < 0 or idx >= len(...)`, line 175) and hits failing the role filter;
collect the rest. -/
def buildResults (metaL : List (MsgRecord × Option Rat)) (rf : RoleFilter)
    (hits : List (Int × Rat)) : List SearchHit :=
  hits.filterMap (fun h =>
    if h.1 < 0 ∨ (metaL.length : Int) ≤ h.1 then none
    else if roleOk rf (metaL.getD h.1.toNat default).1.role then
      some ⟨h.1, h.2, metaL.getD h.1.toNat default⟩
    else none)

/-- Whether a candidate pair passes line 175 and the role filter. -/
def hitKept (metaL : List (MsgRecord × Option Rat)) (rf : RoleFilter)
    (h : Int × Rat) : Bool :=
  !decide (h.1 < 0 ∨ (metaL.length : Int) ≤ h.1) &&
    roleOk rf (metaL.getD h.1.toNat default).1.role

/-- streamlit_app.py lines 170-192: the empty / `-1`-first guard, then the
first 10 filtered results are displayed. -/
def searchDisplayed (metaL : List (MsgRecord × Option Rat)) (rf : RoleFilter)
    (hits : List (Int × Rat)) : List SearchHit :=
  if hits = [] ∨ hits.head?.map Prod.fst = some (-1) then []
  else (buildResults metaL rf hits).take 10

theorem buildResults_map_proj (metaL : List (MsgRecord × Option Rat))
    (rf : RoleFilter) (hits : List (Int × Rat)) :
    (buildResults metaL rf hits).map (fun r => (r.original_faiss_idx, r.score)) =
      hits.filter (hitKept metaL rf) := by
  induction hits with
  | nil => rfl
  | cons h t ih =>
    unfold buildResults at ih ⊢
    rw [List.filterMap_cons, List.filter_cons]
    by_cases h1 : h.1 < 0 ∨ (metaL.length : Int) ≤ h.1
    · have hk : hitKept metaL rf h = false := by
        unfold hitKept
        simp [h1]
      rw [if_pos h1, hk, ih]
      simp
    · rw [if_neg h1]
      by_cases h2 : roleOk rf (metaL.getD h.1.toNat default).1.role
      · have hk : hitKept metaL rf h = true := by
          unfold hitKept
          rw [h2, Bool.and_true]
          simp [h1]
        rw [if_pos h2, hk, List.map_cons, ih]
        simp
      · have h2f : roleOk rf (metaL.getD h.1.toNat default).1.role = false := by
          rwa [Bool.not_eq_true] at h2
        have hk : hitKept metaL rf h = false := by
          unfold hitKept
          rw [h2f, Bool.and_false]
        rw [if_neg h2, hk, ih]
        simp

/-- A one-record Metadata Store for the C2 counterexample. -/
def c2meta : List MsgRecord :=
  [⟨some "c", none, some "user", some (.str "hello"), some (.num 1)⟩]

/-- Claim C2 counterexample: the CLI loop does NOT discard the negative
sentinel handle `-1` — with a one-record store it resolves `-1`, via Python
negative indexing, to that record, which the claim says must never
happen. -/
theorem C2_cli_negative_handle_resolved :
    cliResolveHit c2meta (-1) = .resolved (c2meta.getD 0 default) ∧
      cliResolveHit c2meta (-1) ≠ .skipped := by
  decide

/-- Claim C2 as amended.  Handles at or above the store length are skipped
by the CLI loop; the Streamlit loop resolves only in-bounds handles (so
there every out-of-bounds handle, negative ones included, is discarded);
but in the CLI loop a negative handle `h` with `-len ≤ h < 0` is resolved
through Python negative indexing to record `len + h` instead of being
discarded (no crash), and a handle below `-len` would raise IndexError —
reachable only with an empty store. -/
theorem C2_handle_bounds_amended :
    (∀ (metadata : List MsgRecord) (idx : Int),
      (metadata.length : Int) ≤ idx → cliResolveHit metadata idx = .skipped) ∧
    (∀ (metadata : List MsgRecord) (idx : Int),
      idx < 0 → 0 ≤ idx + metadata.length →
      ∃ m, cliResolveHit metadata idx = .resolved m ∧
        metadata.get? (idx + metadata.length).toNat = some m) ∧
    (∀ (metadata : List MsgRecord) (idx : Int),
      idx + metadata.length < 0 → cliResolveHit metadata idx = .indexError) ∧
    (∀ (metaL : List (MsgRecord × Option Rat)) (rf : RoleFilter)
        (hits : List (Int × Rat)) (r : SearchHit),
      r ∈ buildResults metaL rf hits →
      0 ≤ r.original_faiss_idx ∧ r.original_faiss_idx < (metaL.length : Int)) := by
  refine ⟨?_, ?_, ?_, ?_⟩
  · intro metadata idx h
    unfold cliResolveHit
    rw [if_pos h]
  · intro metadata idx hneg hge
    have hlt : (idx + metadata.length).toNat < metadata.length := by omega
    refine ⟨metadata.get ⟨(idx + metadata.length).toNat, hlt⟩, ?_, ?_⟩
    · unfold cliResolveHit
      rw [if_neg (by omega)]
      unfold pyListGet
      rw [if_neg (by omega), if_pos hge, List.get?_eq_get hlt]
    · exact List.get?_eq_get hlt
  · intro metadata idx h
    unfold cliResolveHit
    rw [if_neg (by omega)]
    unfold pyListGet
    rw [if_neg (by omega), if_neg (by omega)]
  · intro metaL rf hits r hr
    unfold buildResults at hr
    rw [List.mem_filterMap] at hr
    obtain ⟨h, _, hfh⟩ := hr
    by_cases h1 : h.1 < 0 ∨ (metaL.length : Int) ≤ h.1
    · rw [if_pos h1] at hfh
      exact Option.noConfusion hfh
    · by_cases h2 : roleOk rf (metaL.getD h.1.toNat default).1.role
      · rw [if_neg h1, if_pos h2] at hfh
        have : r.original_faiss_idx = h.1 := by
          cases hfh
          rfl
        rw [this]
        push_neg at h1
        exact ⟨h1.1, h1.2⟩
      · rw [if_neg h1, if_neg h2] at hfh
        exact Option.noConfusion hfh

/-- Claim C5: if the Vector Index returns the candidate list ordered by
ascending distance (the FAISS guarantee, §4.3), then the displayed results
keep ascending-distance order through role filtering and truncation, and —
projected back to `(handle, distance)` pairs — form a subsequence of the
unfiltered candidate list. -/
theorem C5_order_and_subsequence (metaL : List (MsgRecord × Option Rat))
    (rf : RoleFilter) (hits : List (Int × Rat))
    (hsorted : hits.Pairwise (fun a b => a.2 ≤ b.2)) :
    (searchDisplayed metaL rf hits).Pairwise (fun a b => a.score ≤ b.score) ∧
    List.Sublist ((searchDisplayed metaL rf hits).map
        (fun r => (r.original_faiss_idx, r.score))) hits := by
  unfold searchDisplayed
  by_cases hg : hits = [] ∨ hits.head?.map Prod.fst = some (-1)
  · rw [if_pos hg]
    exact ⟨List.Pairwise.nil, List.nil_sublist hits⟩
  · rw [if_neg hg]
    have hproj := buildResults_map_proj metaL rf hits
    have hfilter : (hits.filter (hitKept metaL rf)).Pairwise
        (fun a b => a.2 ≤ b.2) :=
      List.Pairwise.sublist (List.filter_sublist hits) hsorted
    have hbuild : (buildResults metaL rf hits).Pairwise
        (fun a b => a.score ≤ b.score) := by
      have := hproj ▸ hfilter
      rw [List.pairwise_map] at this
      exact this
    constructor
    · exact List.Pairwise.sublist (List.take_sublist 10 _) hbuild
    · have hmt : (List.take 10 (buildResults metaL rf hits)).map
          (fun r => (r.original_faiss_idx, r.score)) =
          ((buildResults metaL rf hits).map
            (fun r => (r.original_faiss_idx, r.score))).take 10 := by
        rw [List.map_take]
      rw [hmt, hproj]
      exact (List.take_sublist _ _).trans (List.filter_sublist hits)

/-- Metadata for the C5 witness: a user record and an assistant record. -/
def c5metaL : List (MsgRecord × Option Rat) :=
  [(⟨some "c", none, some "user", some (.str "hello"), some (.num 1)⟩, some 1),
   (⟨some "c", none, some "assistant", some (.str "world"), some (.num 2)⟩, some 2)]

/-- Candidates for the C5 witness: ascending distances, one out-of-bounds
handle. -/
def c5hits : List (Int × Rat) := [(0, 1), (1, 2), (5, 3)]

/-- Witness for C5 at a concrete store, role filter and candidate list. -/
theorem C5_order_and_subsequence_witness :
    (searchDisplayed c5metaL .userZain c5hits).Pairwise
        (fun a b => a.score ≤ b.score) ∧
    List.Sublist ((searchDisplayed c5metaL .userZain c5hits).map
        (fun r => (r.original_faiss_idx, r.score))) c5hits :=
  C5_order_and_subsequence c5metaL .userZain c5hits (by decide)

/-! ## Insight response parsing

src/batch_process_insights.py lines 98-113 (`generate_insights_for_text`)
and src/streamlit_app.py lines 116-121 (the on-demand variant, an identical
scan without the failure check). -/

/-- Python `line.upper().startswith("SUMMARY:")` — the case-INsensitive match. -/
def isSummaryLine (line : String) : Bool :=
  pyStartsWith (pyUpper line) "SUMMARY:"

/-- Python `line.upper().startswith("KEYWORDS:")`. -/
def isKeywordsLine (line : String) : Bool :=
  pyStartsWith (pyUpper line) "KEYWORDS:"

/-- Python `line.replace("SUMMARY:", "").strip()` — the replace is CASE SENSITIVE
and applies to the original line, not the uppercased copy. -/
def stripSummary (line : String) : String :=
  pyStrip (pyRemoveAll "SUMMARY:" line)

/-- Python `line.replace("KEYWORDS:", "").strip()`. -/
def stripKeywords (line : String) : String :=
  pyStrip (pyRemoveAll "KEYWORDS:" line)

/-- Lines 101-105: one line of the scan; the `elif` gives the summary match
precedence, and a later match overwrites an earlier one. -/
def parseStep (st : String × String) (line : String) : String × String :=
  if isSummaryLine line then (stripSummary line, st.2)
  else if isKeywordsLine line then (st.1, stripKeywords line)
  else st

/-- The scan over `content.split` at newlines, both accumulators starting empty:
returns `(summary_line, keywords_line)`. -/
def parseLines (lines : List String) : String × String :=
  lines.foldl parseStep ("", "")

/-- Line 107: split the keywords line on commas, strip each piece, drop the
empty ones. -/
def kwSplit (keywordsLine : String) : List String :=
  ((pySplitChar ',' keywordsLine).map pyStrip).filter (fun kw => kw ≠ "")

/-- Lines 98-113: parse a response; `none` models the `(None, None)`
failure return, taken when the summary line is empty AND the keyword list
came out empty. -/
def parseInsightResponse (content : String) : Option (String × List String) :=
  let p := parseLines (pySplitChar '\n' content)
  if p.1 = "" ∧ kwSplit p.2 = [] then none else some (p.1, kwSplit p.2)

/-- The on-demand parser of streamlit_app.py lines 116-121: the same scan,
returning the (possibly empty) pieces without the failure check. -/
def parseInsightOnDemand (content : String) : String × List String :=
  let p := parseLines (pySplitChar '\n' content)
  (p.1, kwSplit p.2)

/-- The function `generate_insights_for_text` (lines 65-117): empty or whitespace-only
conversation text short-circuits to failure without calling the service;
otherwise the response of the service `llm` is parsed.  (A raised API
exception returns the same failure value; it is not modelled separately.) -/
def generate_insights_for_text (llm : String → String)
    (conversationText : String) : Option (String × List String) :=
  if conversationText = "" ∨ pyStrip conversationText = "" then none
  else parseInsightResponse (llm conversationText)

/-- The last element of a line list satisfying `p` (spec side, for stating
what the overwrite-scan computes). -/
def lastMatch (p : String → Bool) : List String → Option String
  | [] => none
  | x :: t =>
    match lastMatch p t with
    | some y => some y
    | none => if p x then some x else none

theorem lastMatch_cons (p : String → Bool) (x : String) (t : List String) :
    lastMatch p (x :: t) =
      (match lastMatch p t with
       | some y => some y
       | none => if p x then some x else none) := rfl

theorem parseStep_fst (st : String × String) (x : String) :
    (parseStep st x).1 = if isSummaryLine x then stripSummary x else st.1 := by
  unfold parseStep
  by_cases hx : isSummaryLine x
  · rw [if_pos hx, if_pos hx]
  · rw [if_neg hx, if_neg hx]
    by_cases hk : isKeywordsLine x
    · rw [if_pos hk]
    · rw [if_neg hk]

theorem parseStep_snd (st : String × String) (x : String) :
    (parseStep st x).2 =
      if !isSummaryLine x && isKeywordsLine x then stripKeywords x else st.2 := by
  unfold parseStep
  by_cases hx : isSummaryLine x
  · rw [if_pos hx, if_neg (by simp [hx])]
  · rw [if_neg hx]
    by_cases hk : isKeywordsLine x
    · rw [if_pos hk, if_pos (by simp [hx, hk])]
    · rw [if_neg hk, if_neg (by simp [hk])]

theorem foldl_parseStep_last (lines : List String) :
    ∀ init : String × String,
      (lines.foldl parseStep init).1 =
        (match lastMatch isSummaryLine lines with
         | some l => stripSummary l
         | none => init.1) ∧
      (lines.foldl parseStep init).2 =
        (match lastMatch (fun l => !isSummaryLine l && isKeywordsLine l) lines with
         | some l => stripKeywords l
         | none => init.2) := by
  induction lines with
  | nil => intro init; exact ⟨rfl, rfl⟩
  | cons x t ih =>
    intro init
    rw [List.foldl_cons]
    obtain ⟨ih1, ih2⟩ := ih (parseStep init x)
    constructor
    · rw [ih1, lastMatch_cons]
      cases ht : lastMatch isSummaryLine t with
      | some y => rfl
      | none =>
        rw [parseStep_fst]
        by_cases hx : isSummaryLine x
        · rw [if_pos hx, if_pos hx]
        · rw [if_neg hx, if_neg hx]
    · rw [ih2, lastMatch_cons]
      cases ht : lastMatch (fun l => !isSummaryLine l && isKeywordsLine l) t with
      | some y => rfl
      | none =>
        rw [parseStep_snd]
        by_cases hx : !isSummaryLine x && isKeywordsLine x
        · rw [if_pos hx, if_pos hx]
        · rw [if_neg hx, if_neg hx]

/-- Claim C6 counterexample: the same response with lower-case prefixes
parses to a DIFFERENT result than with upper-case prefixes — and the
lower-case prefixes are NOT stripped from the matched lines. -/
theorem C6_case_sensitivity_cex :
    parseInsightResponse "summary: Hi\nkeywords: a, b" =
      some ("summary: Hi", ["keywords: a", "b"]) ∧
    parseInsightResponse "SUMMARY: Hi\nKEYWORDS: a, b" =
      some ("Hi", ["a", "b"]) ∧
    parseInsightResponse "summary: Hi\nkeywords: a, b" ≠
      parseInsightResponse "SUMMARY: Hi\nKEYWORDS: a, b" := by
  decide

/-- Claim C6 as amended.  The parser scans the response lines in order and
keeps, for each of the two kinds, the LAST line whose prefix matches under
case-insensitive comparison (a summary match takes precedence over a
keywords match on the same line); from that line it removes the occurrences
of the exact upper-case prefix and strips — so an upper-case prefix is
removed while a lower- or mixed-case one stays in the parsed text; the
keywords line is split on commas with each piece trimmed and empty pieces
dropped.  The parsed result therefore depends on the letter case of the
prefixes in the response. -/
theorem C6_parse_amended :
    (∀ lines : List String,
      (parseLines lines).1 =
        (match lastMatch isSummaryLine lines with
         | some l => stripSummary l
         | none => "") ∧
      (parseLines lines).2 =
        (match lastMatch (fun l => !isSummaryLine l && isKeywordsLine l) lines with
         | some l => stripKeywords l
         | none => "")) ∧
    parseInsightResponse "SUMMARY: Hi\nKEYWORDS: a, b" =
      some ("Hi", ["a", "b"]) ∧
    parseInsightResponse "Summary: Hi\nKeywords: a, b" =
      some ("Summary: Hi", ["Keywords: a", "b"]) := by
  exact ⟨fun lines => foldl_parseStep_last lines ("", ""), by decide, by decide⟩

/-! ## Insight Cache and the batch main loop
(src/batch_process_insights.py lines 119-243) -/

/-- One value of the Insight Cache JSON object. -/
structure Insight where
  summary : String
  keywords : List String
deriving DecidableEq

/-- The Insight Cache: a Python dict, kept in insertion order as json.dump
serialises it. -/
abbrev InsightCache := List (String × Insight)

/-- Python `d.get(k)`. -/
def dictGet (d : InsightCache) (k : String) : Option Insight :=
  (d.find? (fun p => decide (p.1 = k))).map Prod.snd

/-- Python `k in d`. -/
def dictContains (d : InsightCache) (k : String) : Bool :=
  (dictGet d k).isSome

/-- Python `d[k] = v`: update the existing slot in place, else append. -/
def dictSet (d : InsightCache) (k : String) (v : Insight) : InsightCache :=
  if dictContains d k then d.map (fun p => if p.1 = k then (k, v) else p)
  else d ++ [(k, v)]

theorem find?_mapUpdate (k : String) (v : Insight) :
    ∀ d : InsightCache, dictContains d k = true →
      (d.map (fun p => if p.1 = k then (k, v) else p)).find?
        (fun p => decide (p.1 = k)) = some (k, v) := by
  intro d
  induction d with
  | nil => intro h; exact Bool.noConfusion h
  | cons p t ih =>
    intro h
    rw [List.map_cons, List.find?_cons]
    by_cases hp : p.1 = k
    · rw [if_pos hp]
      simp
    · rw [if_neg hp]
      have hd : (decide (p.1 = k)) = false := by simp [hp]
      rw [hd]
      apply ih
      unfold dictContains dictGet at h ⊢
      rw [List.find?_cons, hd] at h
      exact h

theorem find?_append_single (k : String) (v : Insight) :
    ∀ d : InsightCache, dictContains d k = false →
      (d ++ [(k, v)]).find? (fun p => decide (p.1 = k)) = some (k, v) := by
  intro d
  induction d with
  | nil => intro _; simp [List.find?]
  | cons p t ih =>
    intro h
    rw [List.cons_append, List.find?_cons]
    by_cases hp : p.1 = k
    · exfalso
      unfold dictContains dictGet at h
      rw [List.find?_cons] at h
      simp [hp] at h
    · have hd : (decide (p.1 = k)) = false := by simp [hp]
      rw [hd]
      apply ih
      unfold dictContains dictGet at h ⊢
      rw [List.find?_cons, hd] at h
      exact h

/-- After `d[k] = v`, looking up `k` gives `v`. -/
theorem dictGet_dictSet_same (d : InsightCache) (k : String) (v : Insight) :
    dictGet (dictSet d k v) k = some v := by
  unfold dictSet
  by_cases h : dictContains d k
  · rw [if_pos h]
    unfold dictGet
    rw [find?_mapUpdate k v d h]
    rfl
  · rw [if_neg h]
    unfold dictGet
    rw [find?_append_single k v d (by simpa using h)]
    rfl

theorem dictContains_dictSet_same (d : InsightCache) (k : String) (v : Insight) :
    dictContains (dictSet d k v) k = true := by
  unfold dictContains
  rw [dictGet_dictSet_same]
  rfl

/-- Python `sorted(list(set(conversation ids)))` of batch_process_insights.py
lines 158-160: the distinct conversation ids present in the metadata,
sorted by Python string comparison. -/
def uniqueSortedConvIds (meta : List MsgRecord) : List String :=
  List.insertionSort (fun a b => pyStrLe a b = true)
    (meta.filterMap (fun m => m.conversation_id)).dedup

/-- Lines 170-181: the ids of the metadata not present in the loaded
cache. -/
def unprocessedIds (meta : List MsgRecord) (cache0 : InsightCache) : List String :=
  (uniqueSortedConvIds meta).filter (fun cid => !dictContains cache0 cid)

/-- Lines 167-189, with `TEST_SUBSET_SIZE = 5`: the conversation ids the
run will iterate. -/
def idsToProcess (meta : List MsgRecord) (cache0 : InsightCache) : List String :=
  if 5 < (uniqueSortedConvIds meta).length then
    if 5 ≤ (unprocessedIds meta cache0).length then (unprocessedIds meta cache0).take 5
    else if unprocessedIds meta cache0 ≠ [] then unprocessedIds meta cache0
    else (uniqueSortedConvIds meta).take 5
  else uniqueSortedConvIds meta

/-- The in-memory state of a batch run: the dict `existing_insights`, the
counter `new_insights_generated_this_session`, and the cache snapshots
written to the Insight Cache file so far (empty = file never written). -/
structure RunState where
  insights : InsightCache
  newCount : Nat
  saves : List InsightCache
deriving DecidableEq

/-- Lines 194-239: processing of one conversation id; `iid.1` is its
position in `ids_to_process` and `total` the length of that list.  The
already-cached and the no-text branches `continue` PAST the incremental
save block (lines 197, 207); the generate branches fall through to it
(line 229). -/
def mainStep (pf : String → Option Rat) (llm : String → String)
    (meta : List MsgRecord) (total : Nat) (st : RunState)
    (iid : Nat × String) : RunState :=
  if dictContains st.insights iid.2 then st
  else
    match get_full_conversation_text_for_llm pf iid.2 meta with
    | none =>
      { st with insights := dictSet st.insights iid.2 ⟨"Error: No processable text", []⟩ }
    | some text =>
      if text = "" then
        { st with insights := dictSet st.insights iid.2 ⟨"Error: No processable text", []⟩ }
      else
        let res := generate_insights_for_text llm text
        let insights1 := dictSet st.insights iid.2
          (match res with
           | some (s, ks) => ⟨s, ks⟩
           | none => ⟨"Error: Failed to generate", []⟩)
        let newCount1 := if res.isSome then st.newCount + 1 else st.newCount
        let saves1 :=
          if 0 < newCount1 ∧ (newCount1 % 5 = 0 ∨ iid.1 = total - 1) then
            st.saves ++ [insights1]
          else st.saves
        ⟨insights1, newCount1, saves1⟩

/-- The function `main` (lines 119-243): fold the per-id step over the enumerated
`ids_to_process`, starting from the loaded cache with no new generations
and no file writes. -/
def runMain (pf : String → Option Rat) (llm : String → String)
    (meta : List MsgRecord) (cache0 : InsightCache) : RunState :=
  (List.enum (idsToProcess meta cache0)).foldl
    (mainStep pf llm meta (idsToProcess meta cache0).length)
    ⟨cache0, 0, []⟩

theorem mainStep_cached (pf : String → Option Rat) (llm : String → String)
    (meta : List MsgRecord) (total : Nat) (st : RunState) (iid : Nat × String)
    (h : dictContains st.insights iid.2 = true) :
    mainStep pf llm meta total st iid = st := by
  unfold mainStep
  rw [if_pos h]

theorem foldl_parseStep_no_match :
    ∀ lines : List String,
      (∀ l ∈ lines, isSummaryLine l = false ∧ isKeywordsLine l = false) →
      ∀ st : String × String, lines.foldl parseStep st = st := by
  intro lines
  induction lines with
  | nil => intro _ st; rfl
  | cons x t ih =>
    intro h st
    have hx := h x (List.mem_cons_self x t)
    have hstep : parseStep st x = st := by
      unfold parseStep
      rw [if_neg (by simp [hx.1]), if_neg (by simp [hx.2])]
    rw [List.foldl_cons, hstep]
    exact ih (fun l hl => h l (List.mem_cons_of_mem x hl)) st

theorem kwSplit_empty : kwSplit "" = [] := by decide

/-- A response without a summary or keywords line parses to the failure
value. -/
theorem parseInsightResponse_no_match (content : String)
    (h : ∀ l ∈ pySplitChar '\n' content,
      isSummaryLine l = false ∧ isKeywordsLine l = false) :
    parseInsightResponse content = none := by
  unfold parseInsightResponse
  have hp : parseLines (pySplitChar '\n' content) = ("", "") :=
    foldl_parseStep_no_match _ h ("", "")
  rw [hp]
  rw [if_pos ⟨rfl, kwSplit_empty⟩]

/-- Claim C7: when the conversation id is not cached, its text resolves, and
the response of the generation service contains neither a SUMMARY: line nor
a KEYWORDS: line (case-insensitively), the run caches the explicit failure
marker for that id, counts no new insight, and any later processing of the
same id in the run is a no-op. -/
theorem C7_failure_marker (pf : String → Option Rat) (llm : String → String)
    (meta : List MsgRecord) (total : Nat) (cache : InsightCache) (n : Nat)
    (saves : List InsightCache) (i : Nat) (convId : String) (text : String)
    (hnc : dictContains cache convId = false)
    (htext : get_full_conversation_text_for_llm pf convId meta = some text)
    (hne : text ≠ "")
    (hresp : ∀ l ∈ pySplitChar '\n' (llm text),
      isSummaryLine l = false ∧ isKeywordsLine l = false) :
    dictGet (mainStep pf llm meta total ⟨cache, n, saves⟩ (i, convId)).insights
        convId = some ⟨"Error: Failed to generate", []⟩ ∧
    (mainStep pf llm meta total ⟨cache, n, saves⟩ (i, convId)).newCount = n ∧
    ∀ j : Nat,
      mainStep pf llm meta total
          (mainStep pf llm meta total ⟨cache, n, saves⟩ (i, convId)) (j, convId) =
        mainStep pf llm meta total ⟨cache, n, saves⟩ (i, convId) := by
  have hres : generate_insights_for_text llm text = none := by
    unfold generate_insights_for_text
    by_cases hempty : text = "" ∨ pyStrip text = ""
    · rw [if_pos hempty]
    · rw [if_neg hempty]
      exact parseInsightResponse_no_match _ hresp
  have hmain : mainStep pf llm meta total ⟨cache, n, saves⟩ (i, convId) =
      ⟨dictSet cache convId ⟨"Error: Failed to generate", []⟩, n,
        if 0 < n ∧ (n % 5 = 0 ∨ i = total - 1) then
          saves ++ [dictSet cache convId ⟨"Error: Failed to generate", []⟩]
        else saves⟩ := by
    unfold mainStep
    rw [if_neg (by simp [hnc]), htext]
    simp only [hres, Option.isSome_none, Bool.false_eq_true, if_false, if_neg hne]
  rw [hmain]
  refine ⟨dictGet_dictSet_same _ _ _, rfl, ?_⟩
  intro j
  apply mainStep_cached
  exact dictContains_dictSet_same _ _ _

/-- The metadata record and oblivious generation service of the C7
witness. -/
def c7meta : List MsgRecord :=
  [⟨some "c", none, some "user", some (.str "hi"), some (.num 1)⟩]

/-- A generation service returning a response with no parsable lines. -/
def llmBad : String → String := fun _ => "nothing useful"

/-- Witness for C7 at a concrete store, cache and response. -/
theorem C7_failure_marker_witness :
    dictGet (mainStep noParse llmBad c7meta 1 ⟨[], 0, []⟩ (0, "c")).insights
        "c" = some ⟨"Error: Failed to generate", []⟩ ∧
    (mainStep noParse llmBad c7meta 1 ⟨[], 0, []⟩ (0, "c")).newCount = 0 ∧
    ∀ j : Nat,
      mainStep noParse llmBad c7meta 1
          (mainStep noParse llmBad c7meta 1 ⟨[], 0, []⟩ (0, "c")) (j, "c") =
        mainStep noParse llmBad c7meta 1 ⟨[], 0, []⟩ (0, "c") :=
  C7_failure_marker noParse llmBad c7meta 1 [] 0 [] 0 "c" "User: hi"
    (by decide) (by decide) (by decide) (by decide)

/-- A one-record store for the C8 counterexample. -/
def c8meta : List MsgRecord :=
  [⟨some "c", none, some "user", some (.str "hello"), some (.num 1)⟩]

/-- A generation service answering with SIX keywords. -/
def llmSix : String → String :=
  fun _ => "SUMMARY: s\nKEYWORDS: a, b, c, d, e, f"

/-- Claim C8 counterexample: a response whose KEYWORDS: line holds six
comma-separated items gets all six cached — the entry written to the
Insight Cache has six keywords, not at most five. -/
theorem C8_six_keywords_cached :
    dictGet (mainStep noParse llmSix c8meta 1 ⟨[], 0, []⟩ (0, "c")).insights
        "c" = some ⟨"s", ["a", "b", "c", "d", "e", "f"]⟩ ∧
    5 < (dictGet (mainStep noParse llmSix c8meta 1 ⟨[], 0, []⟩ (0, "c")).insights
        "c").elim 0 (fun ins => ins.keywords.length) := by
  decide

/-- Claim C8 as amended: the keywords field of a cached entry is exactly
the parsed keyword list of the response — every trimmed non-empty
comma-separated item of the matched keywords line, with NO bound enforced;
the prompt asks for five, but a response listing more yields an entry with
more (six in the concrete run above). -/
theorem C8_keywords_amended :
    (∀ (pf : String → Option Rat) (llm : String → String)
        (meta : List MsgRecord) (total : Nat) (st : RunState) (i : Nat)
        (convId : String) (text s : String) (ks : List String),
      dictContains st.insights convId = false →
      get_full_conversation_text_for_llm pf convId meta = some text →
      text ≠ "" →
      generate_insights_for_text llm text = some (s, ks) →
      dictGet (mainStep pf llm meta total st (i, convId)).insights convId =
        some ⟨s, ks⟩) ∧
    (∀ (content s : String) (ks : List String),
      parseInsightResponse content = some (s, ks) →
      ks = kwSplit (parseLines (pySplitChar '\n' content)).2) ∧
    (dictGet (mainStep noParse llmSix c8meta 1 ⟨[], 0, []⟩ (0, "c")).insights
        "c").elim 0 (fun ins => ins.keywords.length) = 6 := by
  refine ⟨?_, ?_, by decide⟩
  · intro pf llm meta total st i convId text s ks hnc htext hne hres
    have hmain : (mainStep pf llm meta total st (i, convId)).insights =
        dictSet st.insights convId ⟨s, ks⟩ := by
      unfold mainStep
      rw [if_neg (by simp [hnc]), htext]
      simp only [hres, Option.isSome_some, if_true, if_neg hne]
    rw [hmain]
    exact dictGet_dictSet_same _ _ _
  · intro content s ks h
    unfold parseInsightResponse at h
    by_cases hc : (parseLines (pySplitChar '\n' content)).1 = "" ∧
        kwSplit (parseLines (pySplitChar '\n' content)).2 = []
    · rw [if_pos hc] at h
      exact Option.noConfusion h
    · rw [if_neg hc] at h
      cases h
      rfl

theorem mainStep_foldl_all_cached (pf : String → Option Rat)
    (llm : String → String) (meta : List MsgRecord) (total : Nat) :
    ∀ (l : List (Nat × String)) (st : RunState),
      (∀ p ∈ l, dictContains st.insights p.2 = true) →
      l.foldl (mainStep pf llm meta total) st = st := by
  intro l
  induction l with
  | nil => intro st _; rfl
  | cons p t ih =>
    intro st h
    rw [List.foldl_cons, mainStep_cached pf llm meta total st p
      (h p (List.mem_cons_self p t))]
    exact ih st (fun q hq => h q (List.mem_cons_of_mem p hq))

theorem snd_mem_of_mem_enumFrom {α : Type} :
    ∀ (l : List α) (n : Nat) (p : Nat × α), p ∈ l.enumFrom n → p.2 ∈ l := by
  intro l
  induction l with
  | nil => intro n p h; cases h
  | cons x t ih =>
    intro n p h
    rw [List.enumFrom] at h
    rcases List.mem_cons.mp h with h | h
    · rw [h]
      exact List.mem_cons_self x t
    · exact List.mem_cons_of_mem x (ih (n + 1) p h)

theorem mem_uniqueSortedConvIds (meta : List MsgRecord) (cid : String)
    (h : cid ∈ uniqueSortedConvIds meta) :
    cid ∈ meta.filterMap (fun m => m.conversation_id) := by
  unfold uniqueSortedConvIds at h
  rw [(List.perm_insertionSort _ _).mem_iff] at h
  exact List.mem_dedup.mp h

theorem mem_idsToProcess (meta : List MsgRecord) (cache0 : InsightCache)
    (cid : String) (h : cid ∈ idsToProcess meta cache0) :
    cid ∈ meta.filterMap (fun m => m.conversation_id) := by
  unfold idsToProcess at h
  by_cases h1 : 5 < (uniqueSortedConvIds meta).length
  · rw [if_pos h1] at h
    by_cases h2 : 5 ≤ (unprocessedIds meta cache0).length
    · rw [if_pos h2] at h
      have : cid ∈ unprocessedIds meta cache0 :=
        (List.take_sublist 5 _).subset h
      exact mem_uniqueSortedConvIds meta cid ((List.filter_sublist _).subset this)
    · rw [if_neg h2] at h
      by_cases h3 : unprocessedIds meta cache0 ≠ []
      · rw [if_pos h3] at h
        exact mem_uniqueSortedConvIds meta cid ((List.filter_sublist _).subset h)
      · rw [if_neg h3] at h
        exact mem_uniqueSortedConvIds meta cid ((List.take_sublist 5 _).subset h)
  · rw [if_neg h1] at h
    exact mem_uniqueSortedConvIds meta cid h

/-- Claim C9: a batch run over a Metadata Store whose every conversation id
is already in the loaded Insight Cache generates nothing, skips every id,
leaves the in-memory cache exactly as loaded, and never writes the Insight
Cache file (so the file is byte-for-byte unchanged). -/
theorem C9_fully_cached_noop (pf : String → Option Rat)
    (llm : String → String) (meta : List MsgRecord) (cache0 : InsightCache)
    (h : ∀ cid ∈ meta.filterMap (fun m => m.conversation_id),
      dictContains cache0 cid = true) :
    runMain pf llm meta cache0 = ⟨cache0, 0, []⟩ := by
  unfold runMain
  apply mainStep_foldl_all_cached
  intro p hp
  exact h p.2 (mem_idsToProcess meta cache0 p.2
    (snd_mem_of_mem_enumFrom _ 0 p hp))

/-- Store and fully covering cache for the C9 witness. -/
def c9meta : List MsgRecord :=
  [⟨some "c", none, some "user", some (.str "hi"), some (.num 1)⟩]

/-- A cache already holding conversation "c". -/
def c9cache : InsightCache := [("c", ⟨"sum", ["k"]⟩)]

/-- Witness for C9 at a concrete store and cache. -/
theorem C9_fully_cached_noop_witness :
    runMain noParse llmBad c9meta c9cache = ⟨c9cache, 0, []⟩ :=
  C9_fully_cached_noop noParse llmBad c9meta c9cache (by decide)

/-- A record whose conversation has no timestamped message at all. -/
def c10metaA : List MsgRecord :=
  [⟨some "c1", none, some "user", some (.str "hi"), none⟩]

/-- A generation service answering in the expected format. -/
def llmGood : String → String := fun _ => "SUMMARY: s\nKEYWORDS: k"

/-- Two single-message conversations "a" and "b". -/
def c10metaB : List MsgRecord :=
  [⟨some "a", none, some "user", some (.str "hi"), some (.num 1)⟩,
   ⟨some "b", none, some "user", some (.str "yo"), some (.num 2)⟩]

/-- A cache already holding conversation "b" (but not "a"). -/
def c10cacheB : InsightCache := [("b", ⟨"sum", ["k"]⟩)]

/-- Claim C10: two terminating runs that end with in-memory entries never
written to the Insight Cache file.  Run A: the only id yields a "No
processable text" marker — the skip branch bypasses the save block, the
run adds the marker to the cache yet never writes the file.  Run B: the
first id generates a real insight (count 1, not a multiple of 5, not the
last index) and the last id takes the already-cached skip branch — the new
entry is in memory but no save ever fires. -/
theorem C10_unsaved_entries :
    ((runMain noParse llmGood c10metaA []).insights =
        [("c1", ⟨"Error: No processable text", []⟩)] ∧
      (runMain noParse llmGood c10metaA []).saves = []) ∧
    ((dictGet (runMain noParse llmGood c10metaB c10cacheB).insights "a" =
        some ⟨"s", ["k"]⟩) ∧
      (runMain noParse llmGood c10metaB c10cacheB).newCount = 1 ∧
      (runMain noParse llmGood c10metaB c10cacheB).saves = []) := by
  decide

end MemSearch
